import Mathlib

/-!
Shallow embedding of the diff2prompt core (config resolution and merge,
exclusion/pathspec engine, diff collection, template resolution) together
with theorems settling the frozen claims about it.

All definitions are translated from `src/src/config.ts`,
`src/src/generate-prompt-from-git-diff.ts` and `src/src/constants.ts`
(latest revision in each file).  I/O-performing steps (git invocations,
file reads and stats) are modelled by explicit environment records; a
JavaScript `throw` becomes an `Except.error` / explicit outcome
constructor.  JavaScript numbers that the code checks with
`Number.isFinite` are modelled by `JSNum` (a finite integer or one of the
non-finite specials); other numeric fields are modelled as `Int`.
-/

namespace Diff2Prompt

/-- JavaScript whitespace as used by `\s`, `String.prototype.trim` and
friends, restricted to the ASCII range (space, tab, line feed, vertical
tab, form feed, carriage return). -/
def isJsWS (c : Char) : Bool :=
  c = ' ' || c = '\t' || c = '\n' || c = Char.ofNat 11 || c = Char.ofNat 12 || c = '\r'

/-- `String.prototype.trim`: drop leading and trailing whitespace. -/
def jsTrim (s : String) : String :=
  String.mk (((s.data.dropWhile isJsWS).reverse.dropWhile isJsWS).reverse)

/-- Splitting on the regex `/\r?\n/g`: a `"\r\n"` pair or a lone `"\n"`
ends a line; a carriage return not followed by a line feed stays inside
its line. -/
def splitLinesAux : List Char → List Char → List String
  | [], acc => [String.mk acc.reverse]
  | '\n' :: rest, acc => String.mk acc.reverse :: splitLinesAux rest []
  | '\r' :: '\n' :: rest, acc => String.mk acc.reverse :: splitLinesAux rest []
  | c :: rest, acc => splitLinesAux rest (c :: acc)

def splitLinesCRLF (s : String) : List String :=
  splitLinesAux s.data []

/-- `true` when the list contains no `'\n'` or `'\r'`: the region that the
regex atom `.` (which excludes line terminators) followed by `$` can
consume to the end of the input. -/
def noLineTerm : List Char → Bool
  | [] => true
  | c :: rest => c ≠ '\n' && c ≠ '\r' && noLineTerm rest

/-- After one mandatory whitespace character, the regex `\s+#.*$` needs
whitespace continuing up to a `'#'`, and then no line terminator up to the
end of the input. -/
def hashTailOk : List Char → Bool
  | [] => false
  | c :: rest => if c = '#' then noLineTerm rest else if isJsWS c then hashTailOk rest else false

/-- `s.replace(/\s+#.*$/, "")`: delete from the leftmost position that
starts a whitespace run leading to a `'#'` whose tail reaches the end of
the input without a line terminator.  A `'#'` with no whitespace before it
is not a match. -/
def stripCommentAux : List Char → List Char
  | [] => []
  | c :: rest => if isJsWS c && hashTailOk rest then [] else c :: stripCommentAux rest

def stripComment (s : String) : String :=
  String.mk (stripCommentAux s.data)

/-- Truthiness of an optional string: defined, and trimming leaves it
non-empty (`v && v.trim()`). -/
def optNonBlank : Option String → Bool
  | some s => !(jsTrim s).isEmpty
  | none => false

theorem jsTrim_eq_empty_iff (s : String) :
    jsTrim s = "" ↔ ∀ c ∈ s.data, isJsWS c := by
  unfold jsTrim
  constructor
  · intro h c hc
    have hdata : ((s.data.dropWhile isJsWS).reverse.dropWhile isJsWS).reverse = [] := by
      have := congrArg String.data h
      simpa using this
    have hnil : s.data.dropWhile isJsWS = [] := by
      rw [List.reverse_eq_nil_iff] at hdata
      rcases hd : s.data.dropWhile isJsWS with _ | ⟨x, xs⟩
      · rfl
      · exfalso
        have hxws : isJsWS x = false := by
          have := List.head?_dropWhile_not isJsWS s.data
          rw [hd] at this
          simpa using this
        have hxmem : x ∈ (s.data.dropWhile isJsWS).reverse := by
          rw [hd]; simp
        have : isJsWS x = true := by
          have hall := List.dropWhile_eq_nil_iff.mp hdata
          exact hall x hxmem
        rw [hxws] at this
        exact Bool.noConfusion this
    exact List.dropWhile_eq_nil_iff.mp hnil c hc
  · intro h
    have : s.data.dropWhile isJsWS = [] := List.dropWhile_eq_nil_iff.mpr h
    simp [this]

theorem jsTrim_ne_empty_of_mem (s : String) (c : Char) (hc : c ∈ s.data)
    (hw : isJsWS c = false) : jsTrim s ≠ "" := by
  intro h
  have := (jsTrim_eq_empty_iff s).mp h c hc
  rw [hw] at this
  exact Bool.noConfusion this

/-- A JavaScript number: a finite value (modelled as an integer — the
configuration fields the program checks are integral) or one of the
non-finite specials `NaN`, `+Infinity`, `-Infinity` that
`Number.isFinite` rejects. -/
inductive JSNum
  | finite (v : Int)
  | nan
  | posInf
  | negInf
deriving DecidableEq, Repr

/-- Runtime shapes a raw configuration value can take.  An object is a
list of key/value fields (runtime objects have distinct keys; lookup
takes the first match). -/
inductive JSValue
  | vstr (s : String)
  | vnum (n : JSNum)
  | vbool (b : Bool)
  | varr (elems : List JSValue)
  | vobj (fields : List (String × JSValue))
  | vnull
  | vundefined

/-- Property access `obj[key]` for the fixed (non-numeric, non-inherited)
keys the normalizer probes: on a non-object it is `undefined`, and on an
array none of the probed names is a populated key. -/
def getField : JSValue → String → JSValue
  | .vobj fields, k => ((fields.lookup k).getD .vundefined)
  | _, _ => .vundefined

/-- `typeof value === "object" && value !== null` — note that arrays are
objects in this sense. -/
def isRecord : JSValue → Bool
  | .vobj _ => true
  | .varr _ => true
  | _ => false

/-- `typeof v === "string" ? v : undefined` for a probed key. -/
def pickString (obj : JSValue) (key : String) : Option String :=
  match getField obj key with
  | .vstr s => some s
  | _ => none

/-- `typeof v === "number" && Number.isFinite(v) ? v : undefined`. -/
def pickNumber (obj : JSValue) (key : String) : Option Int :=
  match getField obj key with
  | .vnum (.finite v) => some v
  | _ => none

/-- `typeof v === "boolean" ? v : undefined`. -/
def pickBoolean (obj : JSValue) (key : String) : Option Bool :=
  match getField obj key with
  | .vbool b => some b
  | _ => none

/-- `typeof x === "string" && x.trim().length > 0` for an array element. -/
def isNonBlankStringVal : JSValue → Bool
  | .vstr s => !(jsTrim s).isEmpty
  | _ => false

def asStringVal : JSValue → Option String
  | .vstr s => some s
  | _ => none

/-- `Array.isArray(v) && v.every((x) => typeof x === "string" && x.trim().length > 0)`. -/
def pickStringArray (obj : JSValue) (key : String) : Option (List String) :=
  match getField obj key with
  | .varr xs =>
      if xs.all isNonBlankStringVal then some (xs.filterMap asStringVal) else none
  | _ => none

/-- `xs` begins with the characters `pre`. -/
def listStartsWith : List Char → List Char → Bool
  | _, [] => true
  | [], _ :: _ => false
  | a :: as, b :: bs => a = b && listStartsWith as bs

/-- `/^[a-zA-Z]:[\\/]/.test(p) || p.startsWith("\\\\") || p.startsWith("/")`. -/
def isAbsolutePath (p : String) : Bool :=
  (match p.data with
   | c1 :: c2 :: c3 :: _ => c1.isAlpha && c2 = ':' && (c3 = '\\' || c3 = '/')
   | _ => false)
  || listStartsWith p.data ['\\', '\\'] || listStartsWith p.data ['/']

/-- `path.join(base, p)` modelled as concatenation with a separator (the
normalization node applies beyond this does not matter for the claims). -/
def pathJoin (a b : String) : String :=
  String.mk (a.data ++ '/' :: b.data)

/-- Resolve a possibly relative path against a base directory, as the
normalizer does: keep absolute paths, join relative ones. -/
def resolveRel (baseDir p : String) : String :=
  if isAbsolutePath p then p else pathJoin baseDir p

/-- `constants.ts`: default filename for the generated prompt output. -/
def DEFAULT_OUTPUT_FILENAME : String := "generated-prompt.txt"

/-- `constants.ts`: error message when neither diff nor new files are found. -/
def ERROR_NO_CHANGES : String := "No changes found: neither diffs nor new files."

/-- `constants.ts`: separator header before listing new/untracked files. -/
def NEW_FILES_HEADER : String := "\n\n--- New files (contents) ---\n"

/-- `constants.ts`: label prefix for each file entry. -/
def FILE_LABEL : String := "File: "

/-- `generate-prompt-from-git-diff.ts` `Options`: the fully merged run
configuration.  Optional TypeScript fields become `Option` fields. -/
structure Options where
  maxConsoleLines : Int
  outputPath : String
  includeUntracked : Bool
  maxNewFileSizeBytes : Int
  maxBuffer : Int
  promptTemplate : Option String := none
  promptTemplateFile : Option String := none
  templatePreset : Option String := none
  exclude : Option (List String) := none
  excludeFile : Option String := none
deriving DecidableEq, Repr

/-- `Partial<Options>`: every field optional; `none` means the property is
absent (the producers `parseArgs` and `normalizeUserConfig` never store an
explicit `undefined`). -/
structure OptionsPatch where
  maxConsoleLines : Option Int := none
  outputPath : Option String := none
  includeUntracked : Option Bool := none
  maxNewFileSizeBytes : Option Int := none
  maxBuffer : Option Int := none
  promptTemplate : Option String := none
  promptTemplateFile : Option String := none
  templatePreset : Option String := none
  exclude : Option (List String) := none
  excludeFile : Option String := none
deriving DecidableEq, Repr

/-- `config.ts` `normalizeUserConfig`: validate a raw config value
field by field into a partial `Options`, resolving relative paths
against `baseDir`. -/
def normalizeUserConfig (cfgRaw : JSValue) (baseDir : String) : OptionsPatch :=
  if isRecord cfgRaw = false then {} else
  let outputPath := pickString cfgRaw "outputPath"
  let outputFile := pickString cfgRaw "outputFile"
  let exclude := pickStringArray cfgRaw "exclude"
  let excludeFile := pickString cfgRaw "excludeFile"
  let resolvedOutputPath : Option String :=
    if optNonBlank outputPath then outputPath.map (resolveRel baseDir)
    else if optNonBlank outputFile then outputFile.map (resolveRel baseDir)
    else none
  let promptTemplateFile := pickString cfgRaw "promptTemplateFile"
  { outputPath :=
      resolvedOutputPath.bind fun s => if s = "" then none else some s
    maxConsoleLines := pickNumber cfgRaw "maxConsoleLines"
    includeUntracked := pickBoolean cfgRaw "includeUntracked"
    maxNewFileSizeBytes := pickNumber cfgRaw "maxNewFileSizeBytes"
    maxBuffer := pickNumber cfgRaw "maxBuffer"
    promptTemplate := pickString cfgRaw "promptTemplate"
    promptTemplateFile :=
      if optNonBlank promptTemplateFile then promptTemplateFile.map (resolveRel baseDir)
      else none
    templatePreset := pickString cfgRaw "templatePreset"
    exclude :=
      match exclude with
      | some xs => if xs.isEmpty then none else some xs
      | none => none
    excludeFile :=
      if optNonBlank excludeFile then excludeFile.map (resolveRel baseDir)
      else none }

/-- `config.ts` `resolveDefaultOutputPath`: prefer the repo root,
otherwise the fallback directory. -/
def resolveDefaultOutputPath (repoRoot : Option String) (fallbackDir filename : String) : String :=
  pathJoin (repoRoot.getD fallbackDir) filename

/-- A required field after the spread `{...defaults, ...fileCfg, ...cli}`:
the CLI value if that property is present, else the file-config value if
present, else the default. -/
def mergeField {α : Type} (d : α) (f c : Option α) : α :=
  c.getD (f.getD d)

/-- An optional field after the spread: CLI property if present, else
file-config property if present, else the (possibly absent) default. -/
def mergeOpt {α : Type} (d f c : Option α) : Option α :=
  (c.orElse fun _ => f).orElse fun _ => d

/-- The object spread `{...defaults, ...fileCfg, ...cli}` of
`mergeOptions` / `main`, field by field. -/
def spreadMerge (d : Options) (f c : OptionsPatch) : Options where
  maxConsoleLines := mergeField d.maxConsoleLines f.maxConsoleLines c.maxConsoleLines
  outputPath := mergeField d.outputPath f.outputPath c.outputPath
  includeUntracked := mergeField d.includeUntracked f.includeUntracked c.includeUntracked
  maxNewFileSizeBytes := mergeField d.maxNewFileSizeBytes f.maxNewFileSizeBytes c.maxNewFileSizeBytes
  maxBuffer := mergeField d.maxBuffer f.maxBuffer c.maxBuffer
  promptTemplate := mergeOpt d.promptTemplate f.promptTemplate c.promptTemplate
  promptTemplateFile := mergeOpt d.promptTemplateFile f.promptTemplateFile c.promptTemplateFile
  templatePreset := mergeOpt d.templatePreset f.templatePreset c.templatePreset
  exclude := mergeOpt d.exclude f.exclude c.exclude
  excludeFile := mergeOpt d.excludeFile f.excludeFile c.excludeFile

/-- `config.ts` `mergeOptions`: spread-merge defaults, file config and CLI
flags, then replace an empty or whitespace-only output path
(`!merged.outputPath || !merged.outputPath.trim()`) by the default
output path. -/
def mergeOptions (defaults : Options) (fileCfg cli : OptionsPatch)
    (repoRoot : Option String) (fallbackDir : String) : Options :=
  if (spreadMerge defaults fileCfg cli).outputPath = ""
      ∨ jsTrim (spreadMerge defaults fileCfg cli).outputPath = "" then
    { spreadMerge defaults fileCfg cli with
        outputPath := resolveDefaultOutputPath repoRoot fallbackDir DEFAULT_OUTPUT_FILENAME }
  else spreadMerge defaults fileCfg cli

/-- `generate-prompt-from-git-diff.ts` `main`, lines building the merged
options: the same spread, but the output path is replaced only when it is
the empty string (`if (!merged.outputPath)`), joined against
`repoRoot || __DIRNAME_SAFE`. -/
def mainMerge (defaults : Options) (fileCfg cli : OptionsPatch)
    (repoRoot dirnameSafe : String) : Options :=
  if (spreadMerge defaults fileCfg cli).outputPath = "" then
    { spreadMerge defaults fileCfg cli with
        outputPath := pathJoin (if repoRoot = "" then dirnameSafe else repoRoot)
          DEFAULT_OUTPUT_FILENAME }
  else spreadMerge defaults fileCfg cli

/-- A value thrown by JavaScript code: an `Error` instance carrying a
message, or any other value, recorded here by its `String(e)` rendering. -/
inductive JSThrown
  | errObj (message : String)
  | rawVal (asString : String)
deriving DecidableEq, Repr

/-- `e instanceof Error ? e.message : String(e)`. -/
def thrownMessage : JSThrown → String
  | .errObj m => m
  | .rawVal s => s

/-- Outcome of `stat` and `readFile` on one untracked file: the stat
result (`st.size`) and the read result (the file's bytes), each either a
value or a thrown failure. -/
structure FileInfo where
  statResult : Except JSThrown Int
  readResult : Except JSThrown (List Nat)
deriving Repr

/-- `generate-prompt-from-git-diff.ts` `looksBinary`: `buf.includes(0)`. -/
def looksBinary (buf : List Nat) : Bool :=
  buf.contains 0

/-- `buf.toString("utf8")` modelled byte-for-byte as code points; exact on
the ASCII content the claims exercise. -/
def bufToString (buf : List Nat) : String :=
  String.mk (buf.map Char.ofNat)

/-- Modelled from the spec: `strings.ts` (`tooLargeSkipped`) is not among
the sources; the spec requires a "too large" marker carrying the byte
count, with no file content. -/
def tooLargeSkipped (size : Int) : String :=
  "<skipped: too large (" ++ toString size ++ " bytes)>"

/-- Modelled from the spec: `strings.ts` (`binarySkipped`) is not among
the sources; the spec requires a binary-skip marker carrying the byte
count instead of inlined text. -/
def binarySkipped (size : Int) : String :=
  "<binary content skipped (" ++ toString size ++ " bytes)>"

/-- Modelled from the spec: `strings.ts` (`readError`) is not among the
sources; the spec requires an error marker containing the failure's
(stringified) message. -/
def readError (msg : String) : String :=
  "<read error: " ++ msg ++ ">"

/-- The body of `collectDiff`'s per-file `try`/`catch`: stat, size guard,
read, binary guard; any throw in stat or read is caught and rendered as a
read-error marker for this file alone. -/
def fileEntry (opt : Options) (file : String) (info : FileInfo) : String :=
  match info.statResult with
  | .error e => "\n" ++ FILE_LABEL ++ file ++ "\n" ++ readError (thrownMessage e) ++ "\n"
  | .ok size =>
    if size > opt.maxNewFileSizeBytes then
      "\n" ++ FILE_LABEL ++ file ++ "\n" ++ tooLargeSkipped size ++ "\n"
    else
      match info.readResult with
      | .error e => "\n" ++ FILE_LABEL ++ file ++ "\n" ++ readError (thrownMessage e) ++ "\n"
      | .ok buf =>
        if looksBinary buf then
          "\n" ++ FILE_LABEL ++ file ++ "\n" ++ binarySkipped size ++ "\n"
        else
          "\n" ++ FILE_LABEL ++ file ++ "\n" ++ bufToString buf ++ "\n"

/-- `split("\n")`: cut at every line feed. -/
def splitOnNLAux : List Char → List Char → List String
  | [], acc => [String.mk acc.reverse]
  | c :: rest, acc =>
    if c = '\n' then String.mk acc.reverse :: splitOnNLAux rest []
    else splitOnNLAux rest (c :: acc)

/-- `filesStdout.split("\n").map((s) => s.trim()).filter(Boolean)`. -/
def untrackedFilesOf (stdout : String) : List String :=
  ((splitOnNLAux stdout.data []).map jsTrim).filter (fun s => s ≠ "")

/-- The untracked-files portion of the payload: the header plus one entry
per listed file, in listing order; empty when no file is listed. -/
def untrackedSection (opt : Options) (fs : String → FileInfo) (files : List String) : String :=
  if files.isEmpty then ""
  else NEW_FILES_HEADER ++ String.join (files.map fun file => fileEntry opt file (fs file))

/-- Environment for one `collectDiff` run: the stdout of the three git
invocations (each may fail, which `runGit` propagates by rejection) and
the per-file stat/read outcomes.  The pathspec arguments appended to the
git commands only select what the external tool returns, so the git
results are taken as inputs here. -/
structure GitEnv where
  unstagedDiff : Except JSThrown String
  stagedDiff : Except JSThrown String
  untrackedList : Except JSThrown String
  fs : String → FileInfo

/-- Result of `collectDiff`: a payload, the thrown `ERROR_NO_CHANGES`
error, or a propagated git-command failure. -/
inductive CollectOutcome
  | ok (payload : String)
  | noChanges
  | gitFailed (e : JSThrown)
deriving DecidableEq, Repr

/-- `generate-prompt-from-git-diff.ts` `collectDiff`: concatenate and trim
the unstaged and staged diffs; when `includeUntracked`, append the
untracked section and throw `ERROR_NO_CHANGES` if the trimmed whole is
empty. -/
def collectDiff (env : GitEnv) (opt : Options) : CollectOutcome :=
  match env.unstagedDiff with
  | .error e => .gitFailed e
  | .ok unstaged =>
    match env.stagedDiff with
    | .error e => .gitFailed e
    | .ok staged =>
      let full0 := jsTrim (unstaged ++ staged)
      if opt.includeUntracked then
        match env.untrackedList with
        | .error e => .gitFailed e
        | .ok filesStdout =>
          let files := untrackedFilesOf filesStdout
          let full := full0 ++ untrackedSection opt env.fs files
          if jsTrim full = "" then .noChanges else .ok full
      else .ok full0

/-- `readTextFileIfExists` never rejects: a readable file's text, `none`
on any read failure.  A run's file system is modelled as this map. -/
def ReadTextFn : Type := String → Option String

/-- `generate-prompt-from-git-diff.ts` `readLinesIfExists`: read the file
(`none`, and the falsy empty string, contribute nothing), split on
`/\r?\n/g`, strip trailing `\s+#.*$` comments, trim, drop blanks. -/
def readLinesIfExists (textFile : ReadTextFn) (path : String) : List String :=
  match textFile path with
  | none => []
  | some txt =>
    if txt = "" then []
    else ((splitLinesCRLF txt).map fun s => jsTrim (stripComment s)).filter (fun s => s ≠ "")

/-- `toGitSlash`: backslashes to forward slashes. -/
def toGitSlash (p : String) : String :=
  String.mk (p.data.map fun c => if c = '\\' then '/' else c)

/-- insertion-ordered de-duplication, as a JavaScript `Set` does: keep
the first occurrence of each element. -/
def dedupFirst (xs : List String) : List String :=
  xs.foldl (fun acc x => if x ∈ acc then acc else acc ++ [x]) []

/-- The lines a truthy `opt.excludeFile` contributes to `buildPathspec`'s
pattern set, its path resolved against the repo root when relative. -/
def excludeFileLines (textFile : ReadTextFn) (repoRoot : String) (opt : Options) : List String :=
  match opt.excludeFile with
  | some ef =>
    if ef = "" then []
    else readLinesIfExists textFile (if isAbsolutePath ef then ef else pathJoin repoRoot ef)
  | none => []

/-- `generate-prompt-from-git-diff.ts` `buildPathspec`: the set union of
`options.exclude` and the exclude-file lines, rendered as
`["."] ++ [":(exclude)p", ...]`; just `["."]` when the set is empty. -/
def buildPathspec (textFile : ReadTextFn) (repoRoot : String) (opt : Options) : List String :=
  if (dedupFirst ((opt.exclude.getD []) ++ excludeFileLines textFile repoRoot opt)).isEmpty
  then ["."]
  else "." :: (dedupFirst ((opt.exclude.getD []) ++ excludeFileLines textFile repoRoot opt)).map
    fun p => ":(exclude)" ++ toGitSlash p

/-- `constants.ts` `TEMPLATE_PRESETS.default` (the template literal after
its `.trim()`); `\x7b`/`\x7d` denote literal braces. -/
def PRESET_DEFAULT : String := "I made changes to the following code. Here is the diff of the modifications:

\x7b\x7bdiff\x7d\x7d

Please generate **all** of the following based on the diff:

1) **Commit message** (single line), using one of:
   - feat: Adding a new feature
   - fix: Bug fix
   - refactor: Code refactoring
   - update: Improvements or updates to existing functionality
   - docs: Documentation changes
   - chore: Build-related or tool configuration changes
   - test: Adding or modifying tests

   Use Conventional Commits format with an **optional scope**:
   Format: <type>(<optional-scope>): <message>
   - Keep message concise (≤ 72 chars if possible), sentence case.
   - Prefer scopes when clear from the diff. Examples:
     - deps / deps-dev
     - ci
     - docs
     - test
     - build
     - perf, security, etc.

2) **PR title**: mirror the commit message exactly.

3) **Branch name**:
   - Lowercase kebab-case, ASCII [a–z0–9-] only.
   - Prefix \"<type>/\" and include \"/<scope>\" if used.
   - ≤ 40 chars after the prefix.

**Output format:**

Commit message: <type>(<optional-scope>): <message>
PR title: <type>(<optional-scope>): <message>
Branch: <type>[/<scope>]/<short-kebab-slug>"

/-- `constants.ts` `TEMPLATE_PRESETS.minimal` (after its `.trim()`). -/
def PRESET_MINIMAL : String := "\x7b\x7bdiff\x7d\x7d

Please output:
- Commit: <type>(<scope?>): <message>
- PR: same as commit
- Branch: <type>[/<scope>]/<slug>"

/-- `constants.ts` `TEMPLATE_PRESETS.ja` (after its `.trim()`). -/
def PRESET_JA : String := "次の差分に基づいて、コミットメッセージ（Conventional Commits）、PRタイトル（コミットと同一）、ブランチ名（<type>[/<scope>]/<slug>）を生成してください。

差分:
\x7b\x7bdiff\x7d\x7d"

/-- `constants.ts` `TEMPLATE_PRESETS` as a lookup over its three keys. -/
def TEMPLATE_PRESETS (name : String) : Option String :=
  if name = "default" then some PRESET_DEFAULT
  else if name = "minimal" then some PRESET_MINIMAL
  else if name = "ja" then some PRESET_JA
  else none

/-- Steps (3)/(4) of `main`'s template selection: a truthy preset name
whose lookup is truthy wins, otherwise the built-in default preset. -/
def presetStep (merged : Options) : String :=
  match merged.templatePreset with
  | some n =>
    if n = "" then PRESET_DEFAULT
    else
      match TEMPLATE_PRESETS n with
      | some body => if body = "" then PRESET_DEFAULT else body
      | none => PRESET_DEFAULT
  | none => PRESET_DEFAULT

/-- Step (2) of `main`'s template selection, entered when step (1) was
falsy and a template-file path is truthy: `txt?.trim()` over
`readTextFileIfExists`. -/
def templateFileStep (merged : Options) (textFile : ReadTextFn) : Option String :=
  match merged.promptTemplateFile with
  | some pf => if pf = "" then none else (textFile pf).map jsTrim
  | none => none

/-- Steps (1)/(2) of `main`'s template selection: the `templateText`
string-or-undefined before the preset/default fallback. -/
def templateStep12 (merged : Options) (textFile : ReadTextFn) : Option String :=
  match merged.promptTemplate with
  | some t =>
    if jsTrim t = "" then templateFileStep merged textFile else some (jsTrim t)
  | none => templateFileStep merged textFile

/-- `generate-prompt-from-git-diff.ts` `main`, template-selection block:
trimmed inline template if truthy; else, when a template file is set, the
trimmed file text (possibly undefined or empty); any falsy result falls
through to the preset/default step. -/
def resolveTemplateText (merged : Options) (textFile : ReadTextFn) : String :=
  match templateStep12 merged textFile with
  | some t => if t = "" then presetStep merged else t
  | none => presetStep merged

/-- The template-precedence cascade in the (amended) spec's words: the
trimmed inline text when non-blank, else the trimmed template-file text
when the path is set, the read succeeds and the trimmed text is
non-empty, else the preset/default step. -/
def templateCascadeSpec (merged : Options) (textFile : ReadTextFn) : String :=
  (((merged.promptTemplate.bind fun t =>
      if jsTrim t = "" then none else some (jsTrim t)).orElse
    fun _ => merged.promptTemplateFile.bind fun pf =>
      if pf = "" then none
      else (textFile pf).bind fun txt =>
        if jsTrim txt = "" then none else some (jsTrim txt)).getD
  (presetStep merged))

/-- `defaultOptions` with the environment-dependent preview-line count at
its constant default (`MAX_CONSOLE_LINES_DEFAULT = 10`); the output path
is the temporary empty string that `main` later replaces. -/
def defaultOptionsModel : Options where
  maxConsoleLines := 10
  outputPath := ""
  includeUntracked := true
  maxNewFileSizeBytes := 1000000
  maxBuffer := 52428800

/-- The claim's selection rule for a required field: the CLI value when
the CLI record defines the field, else the file-config value when
defined, else the default. -/
def claimFieldPick {α : Type} (cliV fileV : Option α) (dV : α) : α :=
  match cliV with
  | some v => v
  | none =>
    match fileV with
    | some v => v
    | none => dV

/-- The claim's selection rule for an optional field. -/
def claimOptPick {α : Type} (cliV fileV dV : Option α) : Option α :=
  match cliV with
  | some v => some v
  | none =>
    match fileV with
    | some v => some v
    | none => dV

theorem mergeField_eq_claimFieldPick {α : Type} (d : α) (f c : Option α) :
    mergeField d f c = claimFieldPick c f d := by
  cases c <;> cases f <;> rfl

theorem mergeOpt_eq_claimOptPick {α : Type} (d f c : Option α) :
    mergeOpt d f c = claimOptPick c f d := by
  cases c <;> cases f <;> rfl

/-- `!s || !s.trim()` collapses to `!s.trim()`: the empty string trims to
itself. -/
theorem empty_or_trim_empty (s : String) :
    (s = "" ∨ jsTrim s = "") ↔ jsTrim s = "" := by
  constructor
  · rintro (h | h)
    · rw [h]; rfl
    · exact h
  · exact Or.inr

theorem pathJoin_data (a b : String) : (pathJoin a b).data = a.data ++ '/' :: b.data := rfl

theorem slash_mem_pathJoin (a b : String) : '/' ∈ (pathJoin a b).data := by
  rw [pathJoin_data]
  exact List.mem_append.mpr (Or.inr (List.mem_cons_self _ _))

theorem jsTrim_pathJoin_ne_empty (a b : String) : jsTrim (pathJoin a b) ≠ "" :=
  jsTrim_ne_empty_of_mem _ '/' (slash_mem_pathJoin a b) (by decide)

theorem pathJoin_ne_empty (a b : String) : pathJoin a b ≠ "" := by
  intro h
  have : (pathJoin a b).data = [] := by rw [h]
  rw [pathJoin_data] at this
  exact absurd this (by simp)

/-- C1, amended: after `mergeOptions`, every field except the output path
is exactly the CLI value when the CLI record defines it, else the
file-config value when defined, else the default; the output path obeys
the same rule and is then replaced by the resolved default output path
exactly when the selected value is empty or whitespace-only.  Each
field's result depends only on that field's three sources (plus the
repo root and fallback directory for the output-path replacement). -/
theorem c1_merge_per_field (d : Options) (f c : OptionsPatch)
    (r : Option String) (fb : String) :
    (mergeOptions d f c r fb).maxConsoleLines
        = claimFieldPick c.maxConsoleLines f.maxConsoleLines d.maxConsoleLines ∧
    (mergeOptions d f c r fb).includeUntracked
        = claimFieldPick c.includeUntracked f.includeUntracked d.includeUntracked ∧
    (mergeOptions d f c r fb).maxNewFileSizeBytes
        = claimFieldPick c.maxNewFileSizeBytes f.maxNewFileSizeBytes d.maxNewFileSizeBytes ∧
    (mergeOptions d f c r fb).maxBuffer
        = claimFieldPick c.maxBuffer f.maxBuffer d.maxBuffer ∧
    (mergeOptions d f c r fb).promptTemplate
        = claimOptPick c.promptTemplate f.promptTemplate d.promptTemplate ∧
    (mergeOptions d f c r fb).promptTemplateFile
        = claimOptPick c.promptTemplateFile f.promptTemplateFile d.promptTemplateFile ∧
    (mergeOptions d f c r fb).templatePreset
        = claimOptPick c.templatePreset f.templatePreset d.templatePreset ∧
    (mergeOptions d f c r fb).exclude
        = claimOptPick c.exclude f.exclude d.exclude ∧
    (mergeOptions d f c r fb).excludeFile
        = claimOptPick c.excludeFile f.excludeFile d.excludeFile ∧
    (mergeOptions d f c r fb).outputPath
        = (if jsTrim (claimFieldPick c.outputPath f.outputPath d.outputPath) = ""
           then pathJoin (r.getD fb) DEFAULT_OUTPUT_FILENAME
           else claimFieldPick c.outputPath f.outputPath d.outputPath) := by
  have hsp : (spreadMerge d f c).outputPath
      = claimFieldPick c.outputPath f.outputPath d.outputPath := by
    simp [spreadMerge, mergeField_eq_claimFieldPick]
  have hcond := empty_or_trim_empty (spreadMerge d f c).outputPath
  unfold mergeOptions
  by_cases h : jsTrim (spreadMerge d f c).outputPath = ""
  · rw [if_pos (hcond.mpr h)]
    have h2 : jsTrim (claimFieldPick c.outputPath f.outputPath d.outputPath) = "" := by
      rw [← hsp]; exact h
    refine ⟨?_, ?_, ?_, ?_, ?_, ?_, ?_, ?_, ?_, ?_⟩
    · simp [spreadMerge, mergeField_eq_claimFieldPick]
    · simp [spreadMerge, mergeField_eq_claimFieldPick]
    · simp [spreadMerge, mergeField_eq_claimFieldPick]
    · simp [spreadMerge, mergeField_eq_claimFieldPick]
    · simp [spreadMerge, mergeOpt_eq_claimOptPick]
    · simp [spreadMerge, mergeOpt_eq_claimOptPick]
    · simp [spreadMerge, mergeOpt_eq_claimOptPick]
    · simp [spreadMerge, mergeOpt_eq_claimOptPick]
    · simp [spreadMerge, mergeOpt_eq_claimOptPick]
    · rw [if_pos h2]; rfl
  · rw [if_neg (fun hc => h (hcond.mp hc))]
    have h2 : ¬ jsTrim (claimFieldPick c.outputPath f.outputPath d.outputPath) = "" := by
      rw [← hsp]; exact h
    refine ⟨?_, ?_, ?_, ?_, ?_, ?_, ?_, ?_, ?_, ?_⟩
    · simp [spreadMerge, mergeField_eq_claimFieldPick]
    · simp [spreadMerge, mergeField_eq_claimFieldPick]
    · simp [spreadMerge, mergeField_eq_claimFieldPick]
    · simp [spreadMerge, mergeField_eq_claimFieldPick]
    · simp [spreadMerge, mergeOpt_eq_claimOptPick]
    · simp [spreadMerge, mergeOpt_eq_claimOptPick]
    · simp [spreadMerge, mergeOpt_eq_claimOptPick]
    · simp [spreadMerge, mergeOpt_eq_claimOptPick]
    · simp [spreadMerge, mergeOpt_eq_claimOptPick]
    · rw [if_neg h2]; exact hsp

/-- A CLI record as produced by `parseArgs` on `--out=` (the flag with an
empty value): the output-path property is defined and holds `""`. -/
def cliEmptyOut : OptionsPatch := { outputPath := some "" }

/-- C1, counterexample to the claim as stated: with the CLI record
defining the output path as the empty string, the merged record does not
hold the CLI value — the fallback replaces it with the resolved default
path. -/
theorem c1_counterexample :
    cliEmptyOut.outputPath = some "" ∧
    claimFieldPick cliEmptyOut.outputPath ({} : OptionsPatch).outputPath
        defaultOptionsModel.outputPath = "" ∧
    (mergeOptions defaultOptionsModel {} cliEmptyOut none "C:/cwd").outputPath
        ≠ claimFieldPick cliEmptyOut.outputPath ({} : OptionsPatch).outputPath
            defaultOptionsModel.outputPath := by
  refine ⟨rfl, rfl, ?_⟩
  decide

/-- C9, amended: `mergeOptions` leaves an output path that is non-empty
and not whitespace-only; `main`'s own inline merge guarantees only that
the output path is non-empty — a whitespace-only CLI value survives it. -/
theorem c9_output_path_nonempty (d : Options) (f c : OptionsPatch)
    (r : Option String) (fb root dir : String) :
    jsTrim (mergeOptions d f c r fb).outputPath ≠ "" ∧
    (mainMerge d f c root dir).outputPath ≠ "" := by
  have hcond := empty_or_trim_empty (spreadMerge d f c).outputPath
  constructor
  · unfold mergeOptions
    by_cases h : jsTrim (spreadMerge d f c).outputPath = ""
    · rw [if_pos (hcond.mpr h)]
      exact jsTrim_pathJoin_ne_empty _ _
    · rw [if_neg (fun hc => h (hcond.mp hc))]
      exact h
  · unfold mainMerge
    by_cases h : (spreadMerge d f c).outputPath = ""
    · rw [if_pos h]
      exact pathJoin_ne_empty _ _
    · rw [if_neg h]
      exact h

/-- A CLI record as produced by `parseArgs` on a quoted `--out=" "`. -/
def cliBlankOut : OptionsPatch := { outputPath := some " " }

/-- C9, counterexample to the claim as stated: through `main`'s merge, a
whitespace-only CLI output path is kept as-is (the replacement only fires
on the empty string), so the merged record's output path is
whitespace-only. -/
theorem c9_counterexample :
    (mainMerge defaultOptionsModel {} cliBlankOut "/repo" "/dir").outputPath = " " ∧
    jsTrim (mainMerge defaultOptionsModel {} cliBlankOut "/repo" "/dir").outputPath = "" := by
  exact ⟨rfl, rfl⟩

/-- C2, amended: `collectDiff` throws the fixed no-changes error exactly
when the three git queries succeed, `includeUntracked` is true, and the
assembled payload (unstaged plus staged diff, then the untracked section)
trims to the empty string; with `includeUntracked` false an empty payload
is returned without error.  Any other failure it surfaces is a propagated
git-command failure. -/
theorem c2_no_changes_characterization (env : GitEnv) (opt : Options) :
    (collectDiff env opt = CollectOutcome.noChanges ↔
      opt.includeUntracked = true ∧
      ∃ u s fns, env.unstagedDiff = Except.ok u ∧ env.stagedDiff = Except.ok s ∧
        env.untrackedList = Except.ok fns ∧
        jsTrim (jsTrim (u ++ s)
          ++ untrackedSection opt env.fs (untrackedFilesOf fns)) = "") ∧
    (∀ e, collectDiff env opt = CollectOutcome.gitFailed e →
      env.unstagedDiff = Except.error e ∨ env.stagedDiff = Except.error e ∨
        env.untrackedList = Except.error e) := by
  obtain ⟨ud, sd, ul, fs⟩ := env
  constructor
  · cases ud with
    | error e => simp [collectDiff]
    | ok u =>
      cases sd with
      | error e => simp [collectDiff]
      | ok s =>
        cases hI : opt.includeUntracked with
        | false => simp [collectDiff, hI]
        | true =>
          cases ul with
          | error e => simp [collectDiff, hI]
          | ok fns =>
            by_cases ht :
                jsTrim (jsTrim (u ++ s)
                  ++ untrackedSection opt fs (untrackedFilesOf fns)) = ""
            · simp [collectDiff, hI, ht]
            · simp [collectDiff, hI, ht]
  · intro e he
    cases ud with
    | error e2 =>
      left
      simp [collectDiff] at he
      rw [he]
    | ok u =>
      cases sd with
      | error e2 =>
        right; left
        simp [collectDiff] at he
        rw [he]
      | ok s =>
        cases hI : opt.includeUntracked with
        | false =>
          simp [collectDiff, hI] at he
        | true =>
          cases ul with
          | error e2 =>
            right; right
            simp [collectDiff, hI] at he
            rw [he]
          | ok fns =>
            by_cases ht :
                jsTrim (jsTrim (u ++ s)
                  ++ untrackedSection opt fs (untrackedFilesOf fns)) = ""
            · simp [collectDiff, hI, ht] at he
            · simp [collectDiff, hI, ht] at he

/-- A run in which both diffs and the untracked listing succeed and are
empty, and the file system is empty. -/
def emptyGitEnv : GitEnv where
  unstagedDiff := Except.ok ""
  stagedDiff := Except.ok ""
  untrackedList := Except.ok ""
  fs := fun _ => ⟨Except.ok 0, Except.ok []⟩

/-- Options with untracked-file inclusion disabled (as `--no-untracked`
produces). -/
def noUntrackedOpts : Options := { defaultOptionsModel with includeUntracked := false }

/-- C2, counterexample to the claim as stated: with `includeUntracked`
false and an empty payload, `collectDiff` returns the empty payload
without raising the no-changes error. -/
theorem c2_counterexample :
    noUntrackedOpts.includeUntracked = false ∧
    collectDiff emptyGitEnv noUntrackedOpts = CollectOutcome.ok "" ∧
    jsTrim "" = "" :=
  ⟨rfl, rfl, rfl⟩

/-- C2 witness: with untracked inclusion on and everything empty, the
characterization yields the no-changes outcome. -/
theorem c2_witness :
    collectDiff emptyGitEnv defaultOptionsModel = CollectOutcome.noChanges := by
  refine (c2_no_changes_characterization emptyGitEnv defaultOptionsModel).1.mpr
    ⟨rfl, "", "", "", rfl, rfl, rfl, ?_⟩
  decide

/-- C3, amended: template resolution follows the strict four-level
cascade — the *trimmed* inline text when non-blank, else the trimmed
template-file text when the path is set, the read succeeds and the
trimmed text is non-empty, else the recognized named preset, else the
built-in default preset; a missing or unreadable template file is never
fatal and simply falls through. -/
theorem fileStep_cascade (merged : Options) (textFile : ReadTextFn) :
    (match templateFileStep merged textFile with
      | some t => if t = "" then presetStep merged else t
      | none => presetStep merged)
    = ((merged.promptTemplateFile.bind fun pf =>
        if pf = "" then none
        else (textFile pf).bind fun txt =>
          if jsTrim txt = "" then none else some (jsTrim txt)).getD
      (presetStep merged)) := by
  unfold templateFileStep
  cases merged.promptTemplateFile with
  | none => rfl
  | some pf =>
    by_cases hpf : pf = ""
    · simp [hpf]
    · cases htf : textFile pf with
      | none => simp [hpf, htf]
      | some txt =>
        by_cases htr : jsTrim txt = ""
        · simp [hpf, htf, htr]
        · simp [hpf, htf, htr]

theorem c3_template_precedence (merged : Options) (textFile : ReadTextFn) :
    resolveTemplateText merged textFile = templateCascadeSpec merged textFile := by
  unfold resolveTemplateText templateCascadeSpec
  cases hT : merged.promptTemplate with
  | none =>
    have h12 : templateStep12 merged textFile = templateFileStep merged textFile := by
      unfold templateStep12; rw [hT]
    rw [h12]
    simp only [Option.none_bind, Option.none_orElse']
    exact fileStep_cascade merged textFile
  | some t =>
    have h12 : templateStep12 merged textFile
        = if jsTrim t = "" then templateFileStep merged textFile
          else some (jsTrim t) := by
      unfold templateStep12; rw [hT]
    rw [h12]
    simp only [Option.some_bind]
    by_cases htr : jsTrim t = ""
    · rw [if_pos htr, if_pos htr]
      simp only [Option.none_orElse']
      exact fileStep_cascade merged textFile
    · rw [if_neg htr, if_neg htr]
      show (if jsTrim t = "" then presetStep merged else jsTrim t) = _
      rw [if_neg htr, Option.some_orElse']
      simp only [Option.getD_some]

/-- Options with a padded inline template and both lower levels also
configured. -/
def inlinePaddedOpts : Options :=
  { defaultOptionsModel with
      promptTemplate := some " X "
      promptTemplateFile := some "/tpl.txt"
      templatePreset := some "minimal" }

/-- C3, counterexample to the claim as stated: a non-blank inline
template is used *trimmed*, not verbatim. -/
theorem c3_counterexample :
    inlinePaddedOpts.promptTemplate = some " X " ∧
    jsTrim " X " ≠ "" ∧
    resolveTemplateText inlinePaddedOpts (fun _ => some "FROM FILE") = "X" ∧
    "X" ≠ " X " := by
  refine ⟨rfl, by decide, by decide, by decide⟩

/-- `typeof v === "string"` holds of the value. -/
def isStringVal : JSValue → Bool
  | .vstr _ => true
  | _ => false

/-- the value is a number and `Number.isFinite` holds of it. -/
def isFiniteNumVal : JSValue → Bool
  | .vnum (.finite _) => true
  | _ => false

/-- `typeof v === "boolean"` holds of the value. -/
def isBoolVal : JSValue → Bool
  | .vbool _ => true
  | _ => false

/-- the value is an array whose elements are all non-blank strings (the
shape `pickStringArray` accepts). -/
def isStringArrayVal : JSValue → Bool
  | .varr xs => xs.all isNonBlankStringVal
  | _ => false

theorem pickString_eq_none (raw : JSValue) (key : String)
    (h : isStringVal (getField raw key) = false) : pickString raw key = none := by
  unfold pickString
  cases hg : getField raw key with
  | vstr s => rw [hg] at h; simp [isStringVal] at h
  | vnum n => rfl
  | vbool b => rfl
  | varr xs => rfl
  | vobj fs => rfl
  | vnull => rfl
  | vundefined => rfl

theorem pickNumber_eq_none (raw : JSValue) (key : String)
    (h : isFiniteNumVal (getField raw key) = false) : pickNumber raw key = none := by
  unfold pickNumber
  cases hg : getField raw key with
  | vnum n =>
    cases n with
    | finite v => rw [hg] at h; simp [isFiniteNumVal] at h
    | nan => rfl
    | posInf => rfl
    | negInf => rfl
  | vstr s => rfl
  | vbool b => rfl
  | varr xs => rfl
  | vobj fs => rfl
  | vnull => rfl
  | vundefined => rfl

theorem pickBoolean_eq_none (raw : JSValue) (key : String)
    (h : isBoolVal (getField raw key) = false) : pickBoolean raw key = none := by
  unfold pickBoolean
  cases hg : getField raw key with
  | vbool b => rw [hg] at h; simp [isBoolVal] at h
  | vstr s => rfl
  | vnum n => rfl
  | varr xs => rfl
  | vobj fs => rfl
  | vnull => rfl
  | vundefined => rfl

theorem pickStringArray_eq_none (raw : JSValue) (key : String)
    (h : isStringArrayVal (getField raw key) = false) : pickStringArray raw key = none := by
  unfold pickStringArray
  cases hg : getField raw key with
  | varr xs =>
    rw [hg] at h
    simp only [isStringArrayVal] at h
    simp [h]
  | vstr s => rfl
  | vnum n => rfl
  | vbool b => rfl
  | vobj fs => rfl
  | vnull => rfl
  | vundefined => rfl

theorem normalizeUserConfig_not_record (raw : JSValue) (b : String)
    (h : isRecord raw = false) : normalizeUserConfig raw b = {} := by
  unfold normalizeUserConfig
  rw [h, if_pos rfl]

/-- C4: `normalizeUserConfig` is total (it is a Lean function: no raw
shape makes it throw) and adopts a field only from a raw value of the
expected runtime type — whenever the corresponding raw value (either
alias for the output path) fails its type check, the field is absent from
the result. -/
theorem c4_type_safety (raw : JSValue) (baseDir : String) :
    ((isStringVal (getField raw "outputPath") = false ∧
      isStringVal (getField raw "outputFile") = false) →
        (normalizeUserConfig raw baseDir).outputPath = none) ∧
    (isFiniteNumVal (getField raw "maxConsoleLines") = false →
        (normalizeUserConfig raw baseDir).maxConsoleLines = none) ∧
    (isBoolVal (getField raw "includeUntracked") = false →
        (normalizeUserConfig raw baseDir).includeUntracked = none) ∧
    (isFiniteNumVal (getField raw "maxNewFileSizeBytes") = false →
        (normalizeUserConfig raw baseDir).maxNewFileSizeBytes = none) ∧
    (isFiniteNumVal (getField raw "maxBuffer") = false →
        (normalizeUserConfig raw baseDir).maxBuffer = none) ∧
    (isStringVal (getField raw "promptTemplate") = false →
        (normalizeUserConfig raw baseDir).promptTemplate = none) ∧
    (isStringVal (getField raw "promptTemplateFile") = false →
        (normalizeUserConfig raw baseDir).promptTemplateFile = none) ∧
    (isStringVal (getField raw "templatePreset") = false →
        (normalizeUserConfig raw baseDir).templatePreset = none) ∧
    (isStringArrayVal (getField raw "exclude") = false →
        (normalizeUserConfig raw baseDir).exclude = none) ∧
    (isStringVal (getField raw "excludeFile") = false →
        (normalizeUserConfig raw baseDir).excludeFile = none) := by
  by_cases hr : isRecord raw = true
  · refine ⟨?_, ?_, ?_, ?_, ?_, ?_, ?_, ?_, ?_, ?_⟩
    · rintro ⟨h1, h2⟩
      simp [normalizeUserConfig, hr, pickString_eq_none raw "outputPath" h1,
        pickString_eq_none raw "outputFile" h2, optNonBlank]
    · intro h
      simp [normalizeUserConfig, hr, pickNumber_eq_none raw "maxConsoleLines" h]
    · intro h
      simp [normalizeUserConfig, hr, pickBoolean_eq_none raw "includeUntracked" h]
    · intro h
      simp [normalizeUserConfig, hr, pickNumber_eq_none raw "maxNewFileSizeBytes" h]
    · intro h
      simp [normalizeUserConfig, hr, pickNumber_eq_none raw "maxBuffer" h]
    · intro h
      simp [normalizeUserConfig, hr, pickString_eq_none raw "promptTemplate" h]
    · intro h
      simp [normalizeUserConfig, hr,
        pickString_eq_none raw "promptTemplateFile" h, optNonBlank]
    · intro h
      simp [normalizeUserConfig, hr, pickString_eq_none raw "templatePreset" h]
    · intro h
      simp [normalizeUserConfig, hr, pickStringArray_eq_none raw "exclude" h]
    · intro h
      simp [normalizeUserConfig, hr,
        pickString_eq_none raw "excludeFile" h, optNonBlank]
  · have hf : isRecord raw = false := by
      rcases hx : isRecord raw with _ | _
      · rfl
      · exact absurd hx hr
    rw [normalizeUserConfig_not_record raw baseDir hf]
    exact ⟨fun _ => rfl, fun _ => rfl, fun _ => rfl, fun _ => rfl, fun _ => rfl,
      fun _ => rfl, fun _ => rfl, fun _ => rfl, fun _ => rfl, fun _ => rfl⟩

/-- A raw config whose preview-count is a string and whose untracked flag
is a string: both must be dropped. -/
def rawMismatch : JSValue := JSValue.vobj
  [("maxConsoleLines", JSValue.vstr "ten"),
   ("outputPath", JSValue.vnum (JSNum.finite 3)),
   ("includeUntracked", JSValue.vstr "yes")]

/-- C4 witness: the type-safety theorem applied to a concrete mismatched
raw config. -/
theorem c4_witness :
    isFiniteNumVal (getField rawMismatch "maxConsoleLines") = false ∧
    (normalizeUserConfig rawMismatch "/base").maxConsoleLines = none ∧
    isBoolVal (getField rawMismatch "includeUntracked") = false ∧
    (normalizeUserConfig rawMismatch "/base").includeUntracked = none :=
  ⟨rfl, (c4_type_safety rawMismatch "/base").2.1 rfl, rfl,
    (c4_type_safety rawMismatch "/base").2.2.1 rfl⟩

theorem pickNumber_eq_some_iff (raw : JSValue) (key : String) (v : Int) :
    pickNumber raw key = some v ↔ getField raw key = JSValue.vnum (JSNum.finite v) := by
  unfold pickNumber
  cases hg : getField raw key with
  | vnum n =>
    cases n with
    | finite w => simp
    | nan => simp
    | posInf => simp
    | negInf => simp
  | vstr s => simp
  | vbool b => simp
  | varr xs => simp
  | vobj fs => simp
  | vnull => simp
  | vundefined => simp

/-- C10: the three numeric fields are adopted exactly when the raw value
is a finite number — `NaN`, `+Infinity` and `-Infinity` are number-typed
but dropped as if absent. -/
theorem c10_finite_number_fields (raw : JSValue) (baseDir : String) (v : Int) :
    ((normalizeUserConfig raw baseDir).maxConsoleLines = some v ↔
      getField raw "maxConsoleLines" = JSValue.vnum (JSNum.finite v)) ∧
    ((normalizeUserConfig raw baseDir).maxNewFileSizeBytes = some v ↔
      getField raw "maxNewFileSizeBytes" = JSValue.vnum (JSNum.finite v)) ∧
    ((normalizeUserConfig raw baseDir).maxBuffer = some v ↔
      getField raw "maxBuffer" = JSValue.vnum (JSNum.finite v)) := by
  by_cases hr : isRecord raw = true
  · refine ⟨?_, ?_, ?_⟩
    · have e : (normalizeUserConfig raw baseDir).maxConsoleLines
          = pickNumber raw "maxConsoleLines" := by
        simp [normalizeUserConfig, hr]
      rw [e]
      exact pickNumber_eq_some_iff raw "maxConsoleLines" v
    · have e : (normalizeUserConfig raw baseDir).maxNewFileSizeBytes
          = pickNumber raw "maxNewFileSizeBytes" := by
        simp [normalizeUserConfig, hr]
      rw [e]
      exact pickNumber_eq_some_iff raw "maxNewFileSizeBytes" v
    · have e : (normalizeUserConfig raw baseDir).maxBuffer
          = pickNumber raw "maxBuffer" := by
        simp [normalizeUserConfig, hr]
      rw [e]
      exact pickNumber_eq_some_iff raw "maxBuffer" v
  · have hf : isRecord raw = false := by
      rcases hx : isRecord raw with _ | _
      · rfl
      · exact absurd hx hr
    have hg : ∀ key, getField raw key = JSValue.vundefined := by
      intro key
      cases raw <;> first | rfl | (exfalso; simp [isRecord] at hf)
    rw [normalizeUserConfig_not_record raw baseDir hf]
    refine ⟨?_, ?_, ?_⟩ <;> rw [hg] <;> simp

/-- A raw config with `NaN` and `+Infinity` numeric fields and one finite
numeric field. -/
def rawNonFinite : JSValue := JSValue.vobj
  [("maxConsoleLines", JSValue.vnum JSNum.nan),
   ("maxBuffer", JSValue.vnum JSNum.posInf),
   ("maxNewFileSizeBytes", JSValue.vnum (JSNum.finite 5))]

/-- C10 witness: `NaN` and `+Infinity` are dropped, a finite value is
adopted, at a concrete raw config. -/
theorem c10_witness :
    (normalizeUserConfig rawNonFinite "/base").maxConsoleLines = none ∧
    (normalizeUserConfig rawNonFinite "/base").maxBuffer = none ∧
    (normalizeUserConfig rawNonFinite "/base").maxNewFileSizeBytes = some 5 :=
  ⟨rfl, rfl, (c10_finite_number_fields rawNonFinite "/base" 5).2.1.mpr rfl⟩

theorem hashTailOk_ws_append (w : List Char) (hall : ∀ c ∈ w, isJsWS c = true)
    (r : List Char) (hr : noLineTerm r = true) :
    hashTailOk (w ++ '#' :: r) = true := by
  induction w with
  | nil =>
    show (if '#' = '#' then noLineTerm r else if isJsWS '#' then hashTailOk r else false) = true
    rw [if_pos rfl]
    exact hr
  | cons c w ih =>
    have hc : isJsWS c = true := hall c (List.mem_cons_self _ _)
    have hne : c ≠ '#' := by
      intro he
      rw [he] at hc
      exact absurd hc (by decide)
    show (if c = '#' then noLineTerm (w ++ '#' :: r)
          else if isJsWS c then hashTailOk (w ++ '#' :: r) else false) = true
    rw [if_neg hne, hc, if_pos rfl]
    exact ih fun x hx => hall x (List.mem_cons_of_mem _ hx)

theorem stripCommentAux_ws_hash (w : List Char) (hw : w ≠ [])
    (hall : ∀ c ∈ w, isJsWS c = true) (r : List Char) (hr : noLineTerm r = true) :
    stripCommentAux (w ++ '#' :: r) = [] := by
  cases w with
  | nil => exact absurd rfl hw
  | cons c w =>
    have hc : isJsWS c = true := hall c (List.mem_cons_self _ _)
    have ht : hashTailOk (w ++ '#' :: r) = true :=
      hashTailOk_ws_append w (fun x hx => hall x (List.mem_cons_of_mem _ hx)) r hr
    show (if isJsWS c && hashTailOk (w ++ '#' :: r) then []
          else c :: stripCommentAux (w ++ '#' :: r)) = []
    rw [hc, ht]
    rfl

theorem stripComment_ws_comment_line (w r : String) (hw : w.data ≠ [])
    (hall : ∀ c ∈ w.data, isJsWS c = true) (hr : noLineTerm r.data = true) :
    jsTrim (stripComment (w ++ "#" ++ r)) = "" := by
  have hd : (w ++ "#" ++ r).data = w.data ++ '#' :: r.data := by
    rw [String.data_append, String.data_append]
    show (w.data ++ ['#']) ++ r.data = _
    rw [List.append_assoc]
    rfl
  unfold stripComment
  rw [hd, stripCommentAux_ws_hash w.data hw hall r.data hr]
  rfl

theorem stripComment_col1_hash_kept (r : String) :
    jsTrim (stripComment ("#" ++ r)) ≠ "" := by
  have hd : ("#" ++ r).data = '#' :: r.data := by
    rw [String.data_append]
    rfl
  have haux : stripCommentAux ('#' :: r.data) = '#' :: stripCommentAux r.data := by
    show (if isJsWS '#' && hashTailOk r.data then []
          else '#' :: stripCommentAux r.data) = _
    rw [show isJsWS '#' = false from rfl, Bool.false_and]
    rfl
  have hs : (stripComment ("#" ++ r)).data = '#' :: stripCommentAux r.data := by
    unfold stripComment
    rw [hd, haux]
  exact jsTrim_ne_empty_of_mem _ '#'
    (by rw [hs]; exact List.mem_cons_self _ _) (by decide)

theorem buildPathspec_eq_dedup (tf : ReadTextFn) (root : String) (opt : Options) :
    buildPathspec tf root opt
      = "." :: (dedupFirst ((opt.exclude.getD []) ++ excludeFileLines tf root opt)).map
          (fun p => ":(exclude)" ++ toGitSlash p) := by
  unfold buildPathspec
  by_cases h :
      (dedupFirst ((opt.exclude.getD []) ++ excludeFileLines tf root opt)).isEmpty = true
  · rw [if_pos h]
    rw [List.isEmpty_iff.mp h]
    rfl
  · rw [if_neg h]

theorem dedupFirst_aux_mem (xs : List String) :
    ∀ (acc : List String) (y : String),
      y ∈ xs.foldl (fun acc x => if x ∈ acc then acc else acc ++ [x]) acc
        ↔ y ∈ acc ∨ y ∈ xs := by
  induction xs with
  | nil =>
    intro acc y
    simp
  | cons x xs ih =>
    intro acc y
    rw [List.foldl_cons, ih]
    by_cases hx : x ∈ acc
    · rw [if_pos hx]
      constructor
      · rintro (h | h)
        · exact Or.inl h
        · exact Or.inr (List.mem_cons_of_mem _ h)
      · rintro (h | h)
        · exact Or.inl h
        · rcases List.mem_cons.mp h with h | h
          · exact Or.inl (h ▸ hx)
          · exact Or.inr h
    · rw [if_neg hx]
      constructor
      · rintro (h | h)
        · rcases List.mem_append.mp h with h | h
          · exact Or.inl h
          · exact Or.inr (List.mem_cons.mpr (Or.inl (List.mem_singleton.mp h)))
        · exact Or.inr (List.mem_cons_of_mem _ h)
      · rintro (h | h)
        · exact Or.inl (List.mem_append.mpr (Or.inl h))
        · rcases List.mem_cons.mp h with h | h
          · refine Or.inl (List.mem_append.mpr (Or.inr ?_))
            rw [h]
            exact List.mem_singleton.mpr rfl
          · exact Or.inr h

theorem dedupFirst_aux_nodup (xs : List String) :
    ∀ acc : List String, acc.Nodup →
      (xs.foldl (fun acc x => if x ∈ acc then acc else acc ++ [x]) acc).Nodup := by
  induction xs with
  | nil =>
    intro acc h
    simpa using h
  | cons x xs ih =>
    intro acc h
    rw [List.foldl_cons]
    apply ih
    by_cases hx : x ∈ acc
    · rw [if_pos hx]
      exact h
    · rw [if_neg hx]
      rw [List.nodup_append]
      exact ⟨h, List.nodup_singleton x,
        fun a ha hax => hx ((List.mem_singleton.mp hax) ▸ ha)⟩

/-- C5, amended: an unreadable exclude file contributes zero patterns
without error; a line whose `#` follows at least one whitespace character
is stripped from the whitespace on and, if nothing precedes, contributes
no pattern; but a line whose `#` starts at column 1 keeps its `#` and
always contributes a pattern; the final pattern set rendered into the
pathspec is the first-occurrence de-duplicated union of `options.exclude`
and the exclude-file lines. -/
theorem c5_exclude_patterns :
    (∀ (tf : ReadTextFn) (path : String), tf path = none →
        readLinesIfExists tf path = []) ∧
    (∀ w r : String, w.data ≠ [] → (∀ c ∈ w.data, isJsWS c = true) →
        noLineTerm r.data = true → jsTrim (stripComment (w ++ "#" ++ r)) = "") ∧
    (∀ r : String, jsTrim (stripComment ("#" ++ r)) ≠ "") ∧
    (∀ (tf : ReadTextFn) (root : String) (opt : Options),
        buildPathspec tf root opt
          = "." :: (dedupFirst ((opt.exclude.getD []) ++ excludeFileLines tf root opt)).map
              (fun p => ":(exclude)" ++ toGitSlash p)) ∧
    (∀ xs : List String, (dedupFirst xs).Nodup) ∧
    (∀ (xs : List String) (x : String), x ∈ dedupFirst xs ↔ x ∈ xs) := by
  refine ⟨?_, stripComment_ws_comment_line, stripComment_col1_hash_kept,
    buildPathspec_eq_dedup, ?_, ?_⟩
  · intro tf path h
    unfold readLinesIfExists
    rw [h]
  · intro xs
    exact dedupFirst_aux_nodup xs [] List.nodup_nil
  · intro xs x
    unfold dedupFirst
    rw [dedupFirst_aux_mem]
    simp

/-- Options carrying a relative exclude-file path. -/
def exFileOpts : Options := { defaultOptionsModel with excludeFile := some ".d2p-ex.txt" }

/-- A file system with an exclude file whose first line is a column-1
`#` line. -/
def hashFileEnv : ReadTextFn :=
  fun p => if p = "/repo/.d2p-ex.txt" then some "#foo\nbar" else none

/-- C5, counterexample to the claim as stated: a `#` at column 1 is not
treated as a comment — the line contributes the literal `#foo` pattern to
the pathspec. -/
theorem c5_counterexample :
    hashFileEnv "/repo/.d2p-ex.txt" = some "#foo\nbar" ∧
    readLinesIfExists hashFileEnv "/repo/.d2p-ex.txt" = ["#foo", "bar"] ∧
    buildPathspec hashFileEnv "/repo" exFileOpts
      = [".", ":(exclude)#foo", ":(exclude)bar"] := by
  refine ⟨by decide, by decide, by decide⟩

/-- C5 witness: the amended theorem applied to an unreadable file and to
a concrete whitespace-led comment line. -/
theorem c5_witness :
    readLinesIfExists (fun _ => none) "/repo/x.txt" = [] ∧
    jsTrim (stripComment ("  " ++ "#" ++ " note")) = "" :=
  ⟨c5_exclude_patterns.1 _ "/repo/x.txt" rfl,
    c5_exclude_patterns.2.1 "  " " note" (by decide) (by decide) (by decide)⟩

/-- C6: a throw in the per-file stat or read step is caught for that file
alone — the file's entry becomes a read-error marker containing the
thrown value's (stringified) message — and as long as the git queries
themselves succeed, `collectDiff` never fails with a propagated error, no
matter what the file system does. -/
theorem c6_per_file_error_containment :
    (∀ (opt : Options) (file : String) (info : FileInfo) (e : JSThrown),
        info.statResult = Except.error e →
        fileEntry opt file info
          = "\n" ++ FILE_LABEL ++ file ++ "\n" ++ readError (thrownMessage e) ++ "\n") ∧
    (∀ (opt : Options) (file : String) (info : FileInfo) (size : Int) (e : JSThrown),
        info.statResult = Except.ok size → ¬ size > opt.maxNewFileSizeBytes →
        info.readResult = Except.error e →
        fileEntry opt file info
          = "\n" ++ FILE_LABEL ++ file ++ "\n" ++ readError (thrownMessage e) ++ "\n") ∧
    (∀ (env : GitEnv) (opt : Options) (u s fns : String),
        env.unstagedDiff = Except.ok u → env.stagedDiff = Except.ok s →
        env.untrackedList = Except.ok fns →
        collectDiff env opt = CollectOutcome.noChanges ∨
          ∃ p, collectDiff env opt = CollectOutcome.ok p) := by
  refine ⟨?_, ?_, ?_⟩
  · intro opt file info e h
    simp [fileEntry, h]
  · intro opt file info size e hs hgt hr
    simp [fileEntry, hs, hgt, hr]
  · intro env opt u s fns hu hs hl
    cases hI : opt.includeUntracked with
    | false =>
      refine Or.inr ⟨jsTrim (u ++ s), ?_⟩
      simp [collectDiff, hu, hs, hI]
    | true =>
      by_cases ht :
          jsTrim (jsTrim (u ++ s)
            ++ untrackedSection opt env.fs (untrackedFilesOf fns)) = ""
      · left
        simp [collectDiff, hu, hs, hl, hI, ht]
      · refine Or.inr
          ⟨jsTrim (u ++ s) ++ untrackedSection opt env.fs (untrackedFilesOf fns), ?_⟩
        simp [collectDiff, hu, hs, hl, hI, ht]

/-- A file whose stat throws a non-Error value. -/
def errFileInfo : FileInfo := ⟨Except.error (JSThrown.rawVal "boom"), Except.ok []⟩

/-- C6 witness: a concrete throwing stat yields exactly the read-error
marker entry. -/
theorem c6_witness :
    fileEntry defaultOptionsModel "f.txt" errFileInfo
      = "\n" ++ FILE_LABEL ++ "f.txt" ++ "\n" ++ readError "boom" ++ "\n" :=
  c6_per_file_error_containment.1 defaultOptionsModel "f.txt" errFileInfo
    (JSThrown.rawVal "boom") rfl

/-- C7: the binary classifier returns true exactly when the buffer holds
a zero byte, and an untracked file within the size limit whose bytes
contain a NUL is rendered as the binary-skip marker carrying the byte
count, not as inlined text. -/
theorem c7_binary_classifier :
    (∀ buf : List Nat, looksBinary buf = true ↔ 0 ∈ buf) ∧
    (∀ (opt : Options) (file : String) (size : Int) (buf : List Nat),
        ¬ size > opt.maxNewFileSizeBytes → 0 ∈ buf →
        fileEntry opt file ⟨Except.ok size, Except.ok buf⟩
          = "\n" ++ FILE_LABEL ++ file ++ "\n" ++ binarySkipped size ++ "\n") := by
  have hiff : ∀ buf : List Nat, looksBinary buf = true ↔ 0 ∈ buf := by
    intro buf
    simp [looksBinary]
  refine ⟨hiff, ?_⟩
  intro opt file size buf hle hmem
  have hb : looksBinary buf = true := (hiff buf).mpr hmem
  simp [fileEntry, hle, hb]

/-- C7 witness: the spec's scenario bytes `[0x01, 0x00, 0x02]` classify
as binary and render as the binary-skip marker. -/
theorem c7_witness :
    looksBinary [1, 0, 2] = true ∧
    fileEntry defaultOptionsModel "img.bin" ⟨Except.ok 3, Except.ok [1, 0, 2]⟩
      = "\n" ++ FILE_LABEL ++ "img.bin" ++ "\n" ++ binarySkipped 3 ++ "\n" :=
  ⟨(c7_binary_classifier.1 [1, 0, 2]).mpr (by decide),
    c7_binary_classifier.2 defaultOptionsModel "img.bin" 3 [1, 0, 2]
      (by decide) (by decide)⟩

/-- C8: the size guard is a strict greater-than — a file strictly larger
than the limit yields the too-large marker with the byte count and its
entry is independent of whatever the read would return (the content is
never read), while a file of size exactly the limit goes down the read
path and non-binary content is inlined. -/
theorem c8_size_guard :
    (∀ (opt : Options) (file : String) (size : Int)
        (r1 r2 : Except JSThrown (List Nat)),
        size > opt.maxNewFileSizeBytes →
        fileEntry opt file ⟨Except.ok size, r1⟩
            = "\n" ++ FILE_LABEL ++ file ++ "\n" ++ tooLargeSkipped size ++ "\n" ∧
        fileEntry opt file ⟨Except.ok size, r1⟩ = fileEntry opt file ⟨Except.ok size, r2⟩) ∧
    (∀ (opt : Options) (file : String) (buf : List Nat),
        looksBinary buf = false →
        fileEntry opt file ⟨Except.ok opt.maxNewFileSizeBytes, Except.ok buf⟩
          = "\n" ++ FILE_LABEL ++ file ++ "\n" ++ bufToString buf ++ "\n") := by
  constructor
  · intro opt file size r1 r2 hgt
    constructor
    · simp [fileEntry, hgt]
    · simp [fileEntry, hgt]
  · intro opt file buf hnb
    have hlt : ¬ opt.maxNewFileSizeBytes > opt.maxNewFileSizeBytes := lt_irrefl _
    simp [fileEntry, hlt, hnb]

/-- C8 witness: the spec's scenario — 1,000,001 bytes against a 1,000,000
limit yields the too-large marker with the literal count regardless of
the read result, while exactly 1,000,000 bytes is read and inlined. -/
theorem c8_witness :
    fileEntry defaultOptionsModel "big.txt" ⟨Except.ok 1000001, Except.ok []⟩
      = "\n" ++ FILE_LABEL ++ "big.txt" ++ "\n" ++ tooLargeSkipped 1000001 ++ "\n" ∧
    tooLargeSkipped 1000001 = "<skipped: too large (1000001 bytes)>" ∧
    fileEntry defaultOptionsModel "ok.txt" ⟨Except.ok 1000000, Except.ok [111, 107]⟩
      = "\n" ++ FILE_LABEL ++ "ok.txt" ++ "\n" ++ bufToString [111, 107] ++ "\n" :=
  ⟨(c8_size_guard.1 defaultOptionsModel "big.txt" 1000001 (Except.ok [])
      (Except.ok []) (by decide)).1,
    by decide,
    c8_size_guard.2 defaultOptionsModel "ok.txt" [111, 107] (by decide)⟩

end Diff2Prompt
